import Mathlib

/-!
Shallow embedding of the reverse-proxy routing layer of lambdawebserver
(`src/lib/middleware/proxy.ts` together with the HTTP helpers of
`src/lib/http.ts`), and proofs of the behavioural properties stated in the
specification.

Strings are Lean `String`s; the JavaScript platform string operations used by
the source (`toLowerCase`, `startsWith`, `substring`, `length`) are modelled
character-wise in the `JsStr` namespace.  WHATWG `URL` objects are modelled by
the `URLModel` structure, `Headers` objects by association lists with
case-insensitive names, and `fetch` by an explicit function parameter from
outbound requests to upstream responses, so every definition is executable.
-/

namespace JsStr

/-- Model of JavaScript `String.prototype.toLowerCase` (character-wise). -/
def toLowerCase (s : String) : String :=
  String.mk (s.data.map Char.toLower)

/-- Model of JavaScript `s.startsWith(p)`. -/
def startsWith (s p : String) : Bool :=
  decide (s.data.take p.data.length = p.data)

/-- Model of JavaScript `s.substring(n)`: the suffix of `s` from index `n`. -/
def substringFrom (s : String) (n : Nat) : String :=
  String.mk (s.data.drop n)

/-- Model of JavaScript `s.length`. -/
def length (s : String) : Nat :=
  s.data.length

end JsStr

/-- Hexadecimal digit value, used by the percent-decoding model. -/
def hexVal (c : Char) : Option Nat :=
  if '0' ≤ c ∧ c ≤ '9' then some (c.toNat - '0'.toNat)
  else if 'a' ≤ c ∧ c ≤ 'f' then some (c.toNat - 'a'.toNat + 10)
  else if 'A' ≤ c ∧ c ≤ 'F' then some (c.toNat - 'A'.toNat + 10)
  else none

/-- Percent-decoding on character lists: `%XY` with hex digits decodes to the
corresponding character, everything else is kept. -/
def percentDecode : List Char → List Char
  | [] => []
  | '%' :: a :: b :: rest =>
    match hexVal a, hexVal b with
    | some hi, some lo => Char.ofNat (16 * hi + lo) :: percentDecode rest
    | _, _ => '%' :: percentDecode (a :: b :: rest)
  | c :: rest => c :: percentDecode rest

/-- Model of the platform `decodeURIComponent` applied to a request path. -/
def decodeURIComponent (s : String) : String :=
  String.mk (percentDecode s.data)

/-- Model of a WHATWG `URL`: scheme, host (authority, including any port),
pathname, search (query string including `?`) and hash (fragment including
`#`). -/
structure URLModel where
  scheme : String
  host : String
  pathname : String
  search : String := ""
  hash : String := ""
deriving DecidableEq, Repr

/-- `URL.origin`: scheme and host. -/
def URLModel.origin (u : URLModel) : String :=
  u.scheme ++ "://" ++ u.host

/-- `URL.href`: full serialisation. -/
def URLModel.href (u : URLModel) : String :=
  u.origin ++ u.pathname ++ u.search ++ u.hash

/-- WHATWG input preprocessing, first half: remove leading and trailing C0
controls and spaces. -/
def url_trim (cs : List Char) : List Char :=
  ((cs.dropWhile (fun c => c.toNat ≤ 32)).reverse.dropWhile (fun c => c.toNat ≤ 32)).reverse

/-- WHATWG input preprocessing, second half: remove every ASCII tab and
newline. -/
def url_strip (cs : List Char) : List Char :=
  cs.filter (fun c => c != '\t' && c != '\n' && c != '\r')

/-- Model of the WHATWG `URL` constructor on a string.  Following the WHATWG
algorithm, leading/trailing C0 controls and spaces are trimmed and tabs and
newlines removed; the input must then begin with a scheme — an ASCII letter
followed by letters, digits, `+`, `-` or `.` — and a colon, otherwise the
constructor throws (`none`; in particular on every relative URL).  After the
scheme, `//` introduces an authority; otherwise the rest is an opaque path
with an empty host.  Structural normalisations the platform applies beyond
this (case-folding of scheme and host, default-port elision, extra-slash
tolerance and empty-host rejection for special schemes) are not modelled, so
`none` is returned only for inputs the platform constructor also rejects. -/
def parse_url (s : String) : Option URLModel :=
  let cs := url_strip (url_trim s.data)
  match cs with
  | c0 :: _ =>
    if c0.isAlpha then
      let scheme := cs.takeWhile (fun c => c.isAlphanum || c == '+' || c == '-' || c == '.')
      match cs.drop scheme.length with
      | ':' :: rest =>
        match rest with
        | '/' :: '/' :: after =>
          let host := after.takeWhile (fun c => c != '/' && c != '?' && c != '#')
          let tail0 := after.drop host.length
          let path := tail0.takeWhile (fun c => c != '?' && c != '#')
          let tail1 := tail0.drop path.length
          let search := tail1.takeWhile (fun c => c != '#')
          let frag := tail1.drop search.length
          some { scheme := String.mk scheme, host := String.mk host,
                 pathname := if path.isEmpty then "/" else String.mk path,
                 search := String.mk search, hash := String.mk frag }
        | _ =>
          let path := rest.takeWhile (fun c => c != '?' && c != '#')
          let tail1 := rest.drop path.length
          let search := tail1.takeWhile (fun c => c != '#')
          let frag := tail1.drop search.length
          some { scheme := String.mk scheme, host := "",
                 pathname := String.mk path,
                 search := String.mk search, hash := String.mk frag }
      | _ => none
    else none
  | [] => none

/-- Header lists model `Headers` objects: ordered name/value pairs with
case-insensitive names. `Headers.get`. -/
def headers_get (hs : List (String × String)) (name : String) : Option String :=
  (hs.find? (fun p => JsStr.toLowerCase p.1 == JsStr.toLowerCase name)).map Prod.snd

/-- `Headers.set`: replaces any existing entry for the (case-insensitive)
name. -/
def headers_set (hs : List (String × String)) (name value : String) :
    List (String × String) :=
  hs.filter (fun p => JsStr.toLowerCase p.1 != JsStr.toLowerCase name)
    ++ [(name, value)]

/-- `HttpMethod` from `src/lib/http.ts`. -/
inductive HttpMethod where
  | DELETE | GET | HEAD | OPTIONS | PATCH | POST | PUT
deriving DecidableEq, Repr

/-- `ALL_HTTP_METHODS` from `src/lib/http.ts`, in its fixed order. -/
def ALL_HTTP_METHODS : List HttpMethod :=
  [.DELETE, .GET, .HEAD, .OPTIONS, .PATCH, .POST, .PUT]

/-- `HttpStatus.NotFound` (`@std/http` `STATUS_CODE`). -/
def HttpStatus.NotFound : Nat := 404

/-- `HttpStatus.MovedPermanently` (`@std/http` `STATUS_CODE`). -/
def HttpStatus.MovedPermanently : Nat := 301

/-- `ProxyRedirectPolicy` from `src/lib/middleware/proxy.ts`. -/
inductive ProxyRedirectPolicy where
  | forward | rewrite | follow
deriving DecidableEq, Repr

/-- `ProxyPathMode` from `src/lib/middleware/proxy.ts`. -/
inductive ProxyPathMode where
  | single | root
deriving DecidableEq, Repr

/-- `RoutePathMatcher`: a literal string or a `RegExp`.  The regular
expression is modelled by its literal source text, tested by unanchored
substring search (`RegExp.prototype.test` for a pattern without anchors or
metacharacters). -/
inductive RoutePathMatcher where
  | literal (s : String)
  | pattern (source : String)
deriving DecidableEq, Repr

/-- `ProxyRouteOptions` from `src/lib/middleware/proxy.ts`; `none` models an
absent optional field. -/
structure ProxyRouteOptions where
  path_mode : Option ProxyPathMode := none
  exclude_paths : Option (List RoutePathMatcher) := none
  redirect : Option ProxyRedirectPolicy := none
deriving Repr

/-- The state of a `ProxyRoute` as stored by its constructor. -/
structure ProxyRoute where
  methods : List HttpMethod
  path : String
  target : URLModel
  options : Option ProxyRouteOptions := none

/-- `this.insensitive_path = path.toLowerCase()` (computed at construction). -/
def ProxyRoute.insensitive_path (r : ProxyRoute) : String :=
  JsStr.toLowerCase r.path

/-- `if (this.options?.path_mode) this.path_mode = this.options.path_mode`,
with field default `"single"`. -/
def ProxyRoute.path_mode (r : ProxyRoute) : ProxyPathMode :=
  (r.options.bind (fun o => o.path_mode)).getD .single

/-- `this.redirect_policy = this.options?.redirect ? this.options.redirect :
"follow"`. -/
def ProxyRoute.redirect_policy (r : ProxyRoute) : ProxyRedirectPolicy :=
  (r.options.bind (fun o => o.redirect)).getD .follow

/-- `this.options?.exclude_paths`. -/
def ProxyRoute.exclude_paths (r : ProxyRoute) : Option (List RoutePathMatcher) :=
  r.options.bind (fun o => o.exclude_paths)

/-- `ProxyRoute.get_target_path`: in `single` mode the lower-cased paths must
be equal (remainder `""`); otherwise (`root` mode) a lower-cased prefix test,
with the remainder cut from the original-case path at `this.path.length`. -/
def ProxyRoute.get_target_path (r : ProxyRoute) (given : String) : Option String :=
  if r.path_mode = .single then
    if r.insensitive_path = JsStr.toLowerCase given then some "" else none
  else if JsStr.startsWith (JsStr.toLowerCase given) r.insensitive_path then
    some (JsStr.substringFrom given (JsStr.length r.path))
  else none

/-- An inbound request as observed through Oak's `ctx.request`. -/
structure RequestModel where
  method : HttpMethod
  url : URLModel
  headers : List (String × String)
  hasBody : Bool := false
  body : String := ""
deriving Repr

/-- The argument record of the outbound `fetch` call. -/
structure FetchRequest where
  url : URLModel
  headers : List (String × String)
  method : HttpMethod
  body : Option String
  redirect : String
deriving DecidableEq, Repr

/-- An HTTP response (both the upstream `fetch` result and the `Response`
object built by `resolve_response`); the body stream is an opaque token. -/
structure ResponseModel where
  status : Nat
  statusText : String := ""
  headers : List (String × String) := []
  body : String := ""
deriving DecidableEq, Repr

/-- Outcome of `resolve_response`: a `Response` (`handled`), `null`
(`notHandled`), or a thrown exception. -/
inductive ResolveOutcome where
  | handled (resp : ResponseModel)
  | notHandled
  | thrown (msg : String)
deriving DecidableEq, Repr

/-- The status-driven part of `ProxyRoute.resolve_response`, after the
`fetch` call has produced `response`.  Mirrors the source: 404 gives `null`;
a 301 under the `rewrite` policy reads `Location` — `if (!location) return
null` covers both an absent header and an empty string, the two falsy cases —
parses it as an absolute URL (throwing on failure, as `new URL` does), and
rewrites it when origin and path prefix match the outbound target; every
other case replies with a copy of the upstream response. -/
def ProxyRoute.resolve_from (r : ProxyRoute) (url target_url : URLModel)
    (response : ResponseModel) : ResolveOutcome :=
  let headers := response.headers
  if response.status = HttpStatus.NotFound then
    .notHandled
  else if response.status = HttpStatus.MovedPermanently ∧ r.redirect_policy = .rewrite then
    match headers_get response.headers "location" with
    | none => .notHandled
    | some location =>
      if location = "" then .notHandled
      else
      match parse_url location with
      | none => .thrown "TypeError: Invalid URL"
      | some target =>
        if target.origin = target_url.origin ∧
            JsStr.startsWith target.pathname r.target.pathname then
          let where_to_go := JsStr.substringFrom target.pathname (JsStr.length r.target.pathname)
          let rewritten_url := { url with pathname := r.path ++ where_to_go }
          .handled { status := response.status, statusText := response.statusText,
                     headers := headers_set headers "location" rewritten_url.href,
                     body := response.body }
        else
          .handled { status := response.status, statusText := response.statusText,
                     headers := headers, body := response.body }
  else
    .handled { status := response.status, statusText := response.statusText,
               headers := headers, body := response.body }

/-- The `fetch` request record built by `resolve_response`: outbound target
URL, rewritten headers, the inbound method and body, and redirect mode
`"follow"` exactly under the `follow` policy. -/
def ProxyRoute.outbound (r : ProxyRoute) (ctx : RequestModel)
    (request_headers : List (String × String)) (target_url : URLModel) : FetchRequest :=
  { url := target_url, headers := request_headers, method := ctx.method,
    body := if ctx.hasBody then some ctx.body else none,
    redirect := if r.redirect_policy = .follow then "follow" else "manual" }

/-- `ProxyRoute.resolve_response`, with `fetch` passed in as the function `f`
from outbound requests to upstream responses. -/
def ProxyRoute.resolve_response (r : ProxyRoute) (f : FetchRequest → ResponseModel)
    (ctx : RequestModel) (request_headers : List (String × String))
    (url target_url : URLModel) : ResolveOutcome :=
  r.resolve_from url target_url (f (r.outbound ctx request_headers target_url))

/-- `RegExp` test for a matcher: literal strings need exact equality, patterns
test anywhere in the path. -/
def matcher_test (m : RoutePathMatcher) (p : String) : Bool :=
  match m with
  | .literal s => p == s
  | .pattern source => scan_match source.data p.data
where
  /-- Unanchored substring search, modelling `RegExp.prototype.test`. -/
  scan_match : List Char → List Char → Bool
  | pat, [] => pat.isEmpty
  | pat, c :: rest => (c :: rest).take pat.length == pat || scan_match pat rest

/-- The `for (const exclude of this.options.exclude_paths)` loop: first
matcher that tests positively wins. -/
def check_excludes : List RoutePathMatcher → String → Bool
  | [], _ => false
  | m :: rest, p => if matcher_test m p then true else check_excludes rest p

/-- Outcome of one route middleware on a request: the fields it assigns to
`ctx.response` (`handled`), a call of `next()` (`next`), or a thrown
exception. -/
inductive MiddlewareOutcome where
  | handled (status : Nat) (headers : List (String × String)) (body : String)
  | next
  | thrown (msg : String)
deriving DecidableEq, Repr

/-- `ProxyRoute.middleware`: method filter, percent-decoded path matching,
exclusion list, host-header overwrite, target-URL construction, and
`resolve_response`; `null` falls through to `next()`. -/
def ProxyRoute.middleware (r : ProxyRoute) (f : FetchRequest → ResponseModel)
    (ctx : RequestModel) : MiddlewareOutcome :=
  if ¬ r.methods.contains ctx.method then .next
  else
    let url_path := decodeURIComponent ctx.url.pathname
    match r.get_target_path url_path with
    | none => .next
    | some found =>
      if check_excludes (r.exclude_paths.getD []) url_path then .next
      else
        let headers := headers_set ctx.headers "host" r.target.host
        let proxy_url := { r.target with pathname := r.target.pathname ++ found }
        match r.resolve_response f ctx headers ctx.url proxy_url with
        | .handled resp => .handled resp.status resp.headers resp.body
        | .notHandled => .next
        | .thrown msg => .thrown msg

/-- `composeMiddleware` applied to the routes' middlewares: each route's
`next()` continues with the remaining routes, and falling off the end
reaches the next pipeline stage (`next`). -/
def run_routes (f : FetchRequest → ResponseModel) :
    List ProxyRoute → RequestModel → MiddlewareOutcome
  | [], _ => .next
  | r :: rest, ctx =>
    match r.middleware f ctx with
    | .next => run_routes f rest ctx
    | o => o

/-- `ProxyRouter.all`: appends a route accepting every HTTP method. -/
def ProxyRouter.all (routes : List ProxyRoute) (path : String) (target : URLModel)
    (options : Option ProxyRouteOptions) : List ProxyRoute :=
  routes ++ [{ methods := ALL_HTTP_METHODS, path := path, target := target,
               options := options }]

/-- `ProxyRouter.get`: appends a route accepting only `GET`. -/
def ProxyRouter.get (routes : List ProxyRoute) (path : String) (target : URLModel)
    (options : Option ProxyRouteOptions) : List ProxyRoute :=
  routes ++ [{ methods := [.GET], path := path, target := target,
               options := options }]

/-- `ProxyRouter.proxy`: throws with zero routes, returns the single route's
middleware with one route, otherwise the composition of all middlewares in
registration order. -/
def ProxyRouter.proxy (routes : List ProxyRoute) :
    Except String ((FetchRequest → ResponseModel) → RequestModel → MiddlewareOutcome) :=
  match routes with
  | [] => .error "No proxy routes have been specified."
  | [r] => .ok (fun f ctx => r.middleware f ctx)
  | _ => .ok (fun f ctx => run_routes f routes ctx)

/-! Concrete configurations used to instantiate the theorems below. -/

/-- Upstream target `http://one.example/up1`. -/
def targetOne : URLModel := { scheme := "http", host := "one.example", pathname := "/up1" }

/-- Upstream target `http://two.example/up2`. -/
def targetTwo : URLModel := { scheme := "http", host := "two.example", pathname := "/up2" }

/-- Upstream target `http://up.example/base`. -/
def targetBase : URLModel := { scheme := "http", host := "up.example", pathname := "/base" }

/-- Route options selecting `root` path mode. -/
def rootOpts : ProxyRouteOptions := { path_mode := some ProxyPathMode.root }

/-- A `root`-mode GET route binding `/api` to `http://up.example/base`. -/
def routeApiRoot : ProxyRoute :=
  { methods := [.GET], path := "/api", target := targetBase, options := some rootOpts }

/-- A `root`-mode GET route for `/api` with the literal exclusion `/api/admin`. -/
def routeApiExcl : ProxyRoute :=
  { methods := [.GET], path := "/api", target := targetBase,
    options := some { path_mode := some ProxyPathMode.root,
                      exclude_paths := some [RoutePathMatcher.literal "/api/admin"] } }

/-- A `single`-mode GET route binding `/ext` to `https://upstream.example/base`
with the `rewrite` redirect policy. -/
def routeExt : ProxyRoute :=
  { methods := [.GET], path := "/ext",
    target := { scheme := "https", host := "upstream.example", pathname := "/base" },
    options := some { redirect := some ProxyRedirectPolicy.rewrite } }

/-- Router with a `root`-mode `/api` route registered before a `single`-mode
`/api/health` route. -/
def routesOrdered : List ProxyRoute :=
  ProxyRouter.get (ProxyRouter.get [] "/api" targetOne (some rootOpts)) "/api/health" targetTwo none

/-- An upstream that replies 200 and echoes the fetched URL in the body. -/
def fetchEcho : FetchRequest → ResponseModel :=
  fun q => { status := 200, statusText := "OK", body := q.url.href }

/-- An upstream that replies 301 with an unparseable (relative) `Location`. -/
def fetchBadRedirect : FetchRequest → ResponseModel :=
  fun _ => { status := 301, headers := [("location", "/relative")] }

/-- A GET request for `https://me.example/api/health`. -/
def reqHealth : RequestModel :=
  { method := .GET, url := { scheme := "https", host := "me.example", pathname := "/api/health" },
    headers := [] }

/-- A GET request for `https://me.example/apiary`. -/
def reqApiary : RequestModel :=
  { method := .GET, url := { scheme := "https", host := "me.example", pathname := "/apiary" },
    headers := [] }

/-- A GET request for `https://me.example/api/admin`. -/
def reqAdmin : RequestModel :=
  { method := .GET, url := { scheme := "https", host := "me.example", pathname := "/api/admin" },
    headers := [] }

/-- A GET request for `https://me.example/ext`. -/
def reqExt : RequestModel :=
  { method := .GET, url := { scheme := "https", host := "me.example", pathname := "/ext" },
    headers := [] }

/-! Helper lemmas. -/

/-- Two strings with the same character data are equal. -/
theorem str_data_eq {a b : String} (h : a.data = b.data) : a = b := by
  cases a
  cases b
  exact congrArg String.mk h

/-- Appending commutes with the lower-casing model. -/
theorem toLowerCase_append (a b : String) :
    JsStr.toLowerCase (a ++ b) = JsStr.toLowerCase a ++ JsStr.toLowerCase b := by
  apply str_data_eq
  show (a.data ++ b.data).map Char.toLower
      = a.data.map Char.toLower ++ b.data.map Char.toLower
  exact List.map_append Char.toLower a.data b.data

/-- **C1.** In `root` path mode, a successful `get_target_path` yields a
remainder cut from the original-case request path at `this.path.length`, and
prepending the configured local path to it reproduces the request path up to
case-folding. -/
theorem root_match_concat (r : ProxyRoute) (given rem : String)
    (hm : r.path_mode = .root)
    (h : r.get_target_path given = some rem) :
    JsStr.toLowerCase (r.path ++ rem) = JsStr.toLowerCase given ∧
    rem = JsStr.substringFrom given (JsStr.length r.path) := by
  unfold ProxyRoute.get_target_path at h
  rw [hm, if_neg (by decide)] at h
  by_cases hsw : JsStr.startsWith (JsStr.toLowerCase given) r.insensitive_path = true
  · rw [if_pos hsw] at h
    have hrem : rem = JsStr.substringFrom given (JsStr.length r.path) :=
      (Option.some.inj h).symm
    refine ⟨?_, hrem⟩
    subst hrem
    apply str_data_eq
    have htake : (given.data.map Char.toLower).take
        ((r.path.data.map Char.toLower).length) = r.path.data.map Char.toLower :=
      of_decide_eq_true hsw
    rw [List.length_map] at htake
    show (r.path.data ++ given.data.drop (JsStr.length r.path)).map Char.toLower
        = given.data.map Char.toLower
    rw [List.map_append, List.map_drop]
    show r.path.data.map Char.toLower
        ++ (given.data.map Char.toLower).drop r.path.data.length
        = given.data.map Char.toLower
    rw [← htake]
    exact List.take_append_drop _ _
  · rw [if_neg hsw] at h
    cases h

/-- Witness for `root_match_concat` at the route `/api ↦ /base` and the
request path `/ApiX`. -/
theorem root_match_concat_witness :
    JsStr.toLowerCase ("/api" ++ "X") = JsStr.toLowerCase "/ApiX" ∧
    "X" = JsStr.substringFrom "/ApiX" (JsStr.length "/api") :=
  root_match_concat routeApiRoot "/ApiX" "X" (by decide) (by decide)

/-- **C2.** In `single` path mode, `get_target_path` matches exactly the
paths case-insensitively equal to the configured local path, and every match
carries the empty remainder. -/
theorem single_match_iff (r : ProxyRoute) (given : String)
    (hm : r.path_mode = .single) :
    ((r.get_target_path given).isSome ↔
      JsStr.toLowerCase given = JsStr.toLowerCase r.path) ∧
    (∀ rem, r.get_target_path given = some rem → rem = "") := by
  unfold ProxyRoute.get_target_path
  rw [hm, if_pos rfl]
  unfold ProxyRoute.insensitive_path
  constructor
  · by_cases h : JsStr.toLowerCase r.path = JsStr.toLowerCase given
    · rw [if_pos h]
      simp [h.symm]
    · rw [if_neg h]
      simp only [Option.isSome_none, Bool.false_eq_true, false_iff]
      exact fun hx => h hx.symm
  · intro rem hrem
    by_cases h : JsStr.toLowerCase r.path = JsStr.toLowerCase given
    · rw [if_pos h] at hrem
      exact (Option.some.inj hrem).symm
    · rw [if_neg h] at hrem
      cases hrem

/-- Witness for `single_match_iff` at the route `/ext` and request path
`/Ext`. -/
theorem single_match_iff_witness :
    (((routeExt.get_target_path "/Ext").isSome ↔
      JsStr.toLowerCase "/Ext" = JsStr.toLowerCase "/ext") ∧
    (∀ rem, routeExt.get_target_path "/Ext" = some rem → rem = "")) :=
  single_match_iff routeExt "/Ext" (by decide)

/-- **C8.** Requesting the pipeline handler from a router with zero
registered routes fails with the `NoRoutesConfigured` error; the failure is a
property of the configuration alone (no request is involved). -/
theorem proxy_empty_fails :
    ProxyRouter.proxy [] = Except.error "No proxy routes have been specified." :=
  rfl

/-- **C9.** The `root`-mode prefix test imposes no path-segment boundary: any
path whose lower-casing starts with the lower-cased local path matches, and in
particular the route `/api ↦ http://up.example/base` matches `/apiary` with
remainder `ary` and forwards it to `http://up.example/baseary`. -/
theorem root_match_no_boundary :
    (∀ (r : ProxyRoute) (given : String), r.path_mode = .root →
      JsStr.startsWith (JsStr.toLowerCase given) r.insensitive_path = true →
      r.get_target_path given = some (JsStr.substringFrom given (JsStr.length r.path))) ∧
    routeApiRoot.get_target_path "/apiary" = some "ary" ∧
    routeApiRoot.middleware fetchEcho reqApiary
      = .handled 200 [] "http://up.example/baseary" := by
  refine ⟨?_, by decide, by decide⟩
  intro r given hm hsw
  unfold ProxyRoute.get_target_path
  rw [hm, if_neg (by decide), if_pos hsw]

/-- Witness for `root_match_no_boundary` at the route `/api` and path
`/apiary`. -/
theorem root_match_no_boundary_witness :
    routeApiRoot.get_target_path "/apiary"
      = some (JsStr.substringFrom "/apiary" (JsStr.length "/api")) :=
  root_match_no_boundary.1 routeApiRoot "/apiary" (by decide) (by decide)

/-- `Headers.get` after `Headers.set` returns the set value. -/
theorem headers_get_set (hs : List (String × String)) (name value : String) :
    headers_get (headers_set hs name value) name = some value := by
  unfold headers_get headers_set
  induction hs with
  | nil => simp
  | cons p rest ih =>
    by_cases h : JsStr.toLowerCase p.1 = JsStr.toLowerCase name
    · rw [List.filter_cons_of_neg (by simp [h])]
      exact ih
    · rw [List.filter_cons_of_pos (by simp [h]), List.cons_append,
        List.find?_cons_of_neg _ (by simp [h])]
      exact ih

/-- A 404 upstream response resolves to `null` whatever the policy. -/
theorem resolve_from_404 (r : ProxyRoute) (url turl : URLModel)
    (resp : ResponseModel) (h : resp.status = 404) :
    r.resolve_from url turl resp = .notHandled := by
  simp [ProxyRoute.resolve_from, h, HttpStatus.NotFound]

/-- Whenever `resolve_from` replies with a response, its status is the
upstream status, which is not 404. -/
theorem resolve_from_handled_status (r : ProxyRoute) (url turl : URLModel)
    (resp out : ResponseModel) (h : r.resolve_from url turl resp = .handled out) :
    out.status = resp.status ∧ resp.status ≠ 404 := by
  by_cases h404 : resp.status = 404
  · rw [resolve_from_404 r url turl resp h404] at h
    cases h
  · refine ⟨?_, h404⟩
    simp only [ProxyRoute.resolve_from, HttpStatus.NotFound, HttpStatus.MovedPermanently] at h
    rw [if_neg h404] at h
    split at h
    · split at h
      · cases h
      · split at h
        · cases h
        · split at h
          · cases h
          · split at h
            · rw [← ResolveOutcome.handled.inj h]
            · rw [← ResolveOutcome.handled.inj h]
    · rw [← ResolveOutcome.handled.inj h]

/-- A 301 response under the `rewrite` policy whose `Location` parses to a
URL matching the outbound origin and upstream base path is rewritten: the
inbound URL's pathname is replaced by the local path plus the redirect
remainder, and the result is stored in the `Location` header. -/
theorem resolve_from_rewrite (r : ProxyRoute) (url turl : URLModel)
    (resp : ResponseModel) (loc : String) (t : URLModel)
    (hp : r.redirect_policy = .rewrite) (hs : resp.status = 301)
    (hl : headers_get resp.headers "location" = some loc)
    (ht : parse_url loc = some t)
    (hcond : t.origin = turl.origin ∧ JsStr.startsWith t.pathname r.target.pathname = true) :
    r.resolve_from url turl resp
      = .handled { status := resp.status, statusText := resp.statusText,
                   headers := headers_set resp.headers "location"
                     (URLModel.href { url with pathname := (r.path ++
                       JsStr.substringFrom t.pathname (JsStr.length r.target.pathname)) }),
                   body := resp.body } := by
  have hne : ¬ loc = "" := fun he => Option.noConfusion (he ▸ ht)
  simp only [ProxyRoute.resolve_from, hs, hp, hl, ht, HttpStatus.NotFound,
    HttpStatus.MovedPermanently]
  rw [if_pos (show True ∧ True from ⟨trivial, trivial⟩), if_pos hcond,
    if_neg (show ¬(301 = 404) by decide), if_neg hne]

/-- A 301 response under the `rewrite` policy whose `Location` parses but
does not match the outbound origin or the upstream base path is relayed
verbatim. -/
theorem resolve_from_rewrite_mismatch (r : ProxyRoute) (url turl : URLModel)
    (resp : ResponseModel) (loc : String) (t : URLModel)
    (hp : r.redirect_policy = .rewrite) (hs : resp.status = 301)
    (hl : headers_get resp.headers "location" = some loc)
    (ht : parse_url loc = some t)
    (hcond : ¬ (t.origin = turl.origin ∧ JsStr.startsWith t.pathname r.target.pathname = true)) :
    r.resolve_from url turl resp = .handled resp := by
  have hne : ¬ loc = "" := fun he => Option.noConfusion (he ▸ ht)
  simp only [ProxyRoute.resolve_from, hs, hp, hl, ht, HttpStatus.NotFound,
    HttpStatus.MovedPermanently]
  rw [if_pos (show True ∧ True from ⟨trivial, trivial⟩), if_neg hcond,
    if_neg (show ¬(301 = 404) by decide), ← hs, if_neg hne]

/-- A 301 response under the `rewrite` policy whose `Location` does not parse
as an absolute URL makes `new URL` throw. -/
theorem resolve_from_parse_fail (r : ProxyRoute) (url turl : URLModel)
    (resp : ResponseModel) (loc : String)
    (hp : r.redirect_policy = .rewrite) (hs : resp.status = 301)
    (hl : headers_get resp.headers "location" = some loc)
    (hne : loc ≠ "")
    (ht : parse_url loc = none) :
    r.resolve_from url turl resp = .thrown "TypeError: Invalid URL" := by
  simp only [ProxyRoute.resolve_from, hs, hp, hl, ht, HttpStatus.NotFound,
    HttpStatus.MovedPermanently]
  rw [if_pos (show True ∧ True from ⟨trivial, trivial⟩),
    if_neg (show ¬(301 = 404) by decide), if_neg hne]

/-- On a request whose method is accepted, whose decoded path matches, and
which no exclusion captures, the middleware defers to `resolve_response` on
the host-rewritten headers and the extended target URL. -/
theorem middleware_reach (r : ProxyRoute) (f : FetchRequest → ResponseModel)
    (ctx : RequestModel) (found : String)
    (hmeth : r.methods.contains ctx.method = true)
    (hmatch : r.get_target_path (decodeURIComponent ctx.url.pathname) = some found)
    (hexcl : check_excludes (r.exclude_paths.getD [])
      (decodeURIComponent ctx.url.pathname) = false) :
    r.middleware f ctx
      = match r.resolve_response f ctx (headers_set ctx.headers "host" r.target.host)
          ctx.url { r.target with pathname := r.target.pathname ++ found } with
        | .handled resp => .handled resp.status resp.headers resp.body
        | .notHandled => .next
        | .thrown msg => .thrown msg := by
  simp only [ProxyRoute.middleware, hmeth, hmatch, hexcl, Bool.not_eq_true,
    Bool.false_eq_true, if_false, not_true_eq_false]

/-- An upstream that replies 404 to everything. -/
def fetch404 : FetchRequest → ResponseModel :=
  fun _ => { status := 404 }

/-- The upstream 301 response of the rewrite scenario: `Location` inside the
upstream's own path space. -/
def resp301 : ResponseModel :=
  { status := 301, statusText := "Moved Permanently",
    headers := [("location", "https://upstream.example/base/sub")] }

/-- The parsed redirect target of `resp301`. -/
def redirTarget : URLModel :=
  { scheme := "https", host := "upstream.example", pathname := "/base/sub" }

/-- **C3.** If the upstream replies 404, the middleware calls `next()`
whatever the redirect policy and configuration; and the middleware never
itself produces a response with status 404. -/
theorem upstream_404_falls_through (r : ProxyRoute) (f : FetchRequest → ResponseModel)
    (ctx : RequestModel) :
    ((∀ q, (f q).status = 404) → r.middleware f ctx = .next) ∧
    (∀ st hs b, r.middleware f ctx = .handled st hs b → st ≠ 404) := by
  constructor
  · intro h404
    simp only [ProxyRoute.middleware]
    split
    · rfl
    · split
      · rfl
      · split
        · rfl
        · simp only [ProxyRoute.resolve_response]
          rw [resolve_from_404 r ctx.url _ _ (h404 _)]
  · intro st hs2 b h
    simp only [ProxyRoute.middleware] at h
    split at h
    · cases h
    · split at h
      · cases h
      · split at h
        · cases h
        · split at h
          · rename_i resp heq
            injection h with h1 h2 h3
            have hst := resolve_from_handled_status r ctx.url _ _ resp heq
            rw [← h1, hst.1]
            exact hst.2
          · cases h
          · cases h

/-- Witness for `upstream_404_falls_through`: the `/api` route falls through
on a 404 upstream. -/
theorem upstream_404_falls_through_witness :
    routeApiRoot.middleware fetch404 reqApiary = MiddlewareOutcome.next :=
  (upstream_404_falls_through routeApiRoot fetch404 reqApiary).1 (fun _ => rfl)

/-- **C4.** Under the `rewrite` policy, a 301 with an absolute `Location`
matching the outbound origin and the upstream base path is answered with
status 301 and a `Location` rewritten to the local path plus the redirect
remainder, resolved against the inbound request URL; on an origin or
path-prefix mismatch the upstream response is relayed verbatim with the
original `Location`. -/
theorem rewrite_301_policy (r : ProxyRoute) (url turl : URLModel)
    (resp : ResponseModel) (loc : String) (t : URLModel)
    (hp : r.redirect_policy = .rewrite) (hs : resp.status = 301)
    (hl : headers_get resp.headers "location" = some loc)
    (ht : parse_url loc = some t) :
    (t.origin = turl.origin ∧ JsStr.startsWith t.pathname r.target.pathname = true →
      r.resolve_from url turl resp
        = .handled { status := 301, statusText := resp.statusText,
                     headers := headers_set resp.headers "location"
                       (URLModel.href { url with pathname := (r.path ++
                         JsStr.substringFrom t.pathname (JsStr.length r.target.pathname)) }),
                     body := resp.body }) ∧
    (¬ (t.origin = turl.origin ∧ JsStr.startsWith t.pathname r.target.pathname = true) →
      r.resolve_from url turl resp = .handled resp ∧
      headers_get resp.headers "location" = some loc) := by
  constructor
  · intro hcond
    rw [resolve_from_rewrite r url turl resp loc t hp hs hl ht hcond, hs]
  · intro hcond
    exact ⟨resolve_from_rewrite_mismatch r url turl resp loc t hp hs hl ht hcond, hl⟩

/-- Witness for `rewrite_301_policy`: the `/ext ↦ https://upstream.example/base`
route rewrites `Location: https://upstream.example/base/sub` into
`https://me.example/ext/sub`. -/
theorem rewrite_301_policy_witness :
    routeExt.resolve_from reqExt.url routeExt.target resp301
      = .handled { status := 301, statusText := "Moved Permanently",
                   headers := headers_set resp301.headers "location"
                     (URLModel.href { reqExt.url with pathname := ("/ext" ++
                       JsStr.substringFrom "/base/sub" (JsStr.length "/base")) }),
                   body := "" } :=
  (rewrite_301_policy routeExt reqExt.url routeExt.target resp301
    "https://upstream.example/base/sub" redirTarget (by decide) (by decide)
    (by decide) (by decide)).1 (by decide)

/-- **C10.** A successful `rewrite` of a 301 only replaces the pathname of
the inbound request's URL: the rewritten `Location` keeps the inbound URL's
scheme, host, search and hash, while the upstream `Location`'s own search and
fragment do not appear (only its pathname is used). -/
theorem rewrite_only_replaces_pathname (r : ProxyRoute) (url turl : URLModel)
    (resp : ResponseModel) (loc : String) (t : URLModel) (V : String)
    (hp : r.redirect_policy = .rewrite) (hs : resp.status = 301)
    (hl : headers_get resp.headers "location" = some loc)
    (ht : parse_url loc = some t)
    (hcond : t.origin = turl.origin ∧ JsStr.startsWith t.pathname r.target.pathname = true)
    (hV : V = URLModel.href { scheme := url.scheme, host := url.host,
                              pathname := (r.path ++ JsStr.substringFrom t.pathname
                                (JsStr.length r.target.pathname)),
                              search := url.search, hash := url.hash }) :
    r.resolve_from url turl resp
      = .handled { status := resp.status, statusText := resp.statusText,
                   headers := headers_set resp.headers "location" V,
                   body := resp.body } ∧
    headers_get (headers_set resp.headers "location" V) "location" = some V := by
  subst hV
  exact ⟨resolve_from_rewrite r url turl resp loc t hp hs hl ht hcond,
    headers_get_set resp.headers "location" _⟩

/-- Witness for `rewrite_only_replaces_pathname` on the `/ext` rewrite
scenario, with a search string on the inbound URL. -/
theorem rewrite_only_replaces_pathname_witness :
    routeExt.resolve_from { scheme := "https", host := "me.example",
                            pathname := "/ext", search := "?q=1" } routeExt.target resp301
      = .handled { status := 301, statusText := "Moved Permanently",
                   headers := headers_set resp301.headers "location"
                     "https://me.example/ext/sub?q=1",
                   body := "" } ∧
    headers_get (headers_set resp301.headers "location" "https://me.example/ext/sub?q=1")
        "location" = some "https://me.example/ext/sub?q=1" :=
  rewrite_only_replaces_pathname routeExt
    { scheme := "https", host := "me.example", pathname := "/ext", search := "?q=1" }
    routeExt.target resp301 "https://upstream.example/base/sub" redirTarget
    "https://me.example/ext/sub?q=1" (by decide) (by decide) (by decide) (by decide)
    (by decide) (by decide)

/-- Counterexample input for the unparseable-`Location` edge: the `/ext`
`rewrite` route receiving a 301 whose `Location` is relative throws (the
`URL` constructor raises a `TypeError`) instead of falling through to
`next()`. -/
theorem rewrite_unparseable_location_throws_not_next :
    routeExt.middleware fetchBadRedirect reqExt = .thrown "TypeError: Invalid URL" ∧
    routeExt.middleware fetchBadRedirect reqExt ≠ MiddlewareOutcome.next := by
  decide

/-- **C5 (amended).** Under the `rewrite` policy, a matched request whose
upstream replies 301 with a non-empty `Location` that fails to parse as an
absolute URL (an empty `Location` is falsy, like an absent header, and yields
`NotHandled`) makes the middleware raise the `URL` constructor's error; it
does not return `NotHandled`. -/
theorem rewrite_unparseable_location_throws (r : ProxyRoute)
    (f : FetchRequest → ResponseModel) (ctx : RequestModel) (found : String)
    (resp : ResponseModel) (loc : String)
    (hf : f = fun _ => resp)
    (hp : r.redirect_policy = .rewrite) (hs : resp.status = 301)
    (hl : headers_get resp.headers "location" = some loc)
    (hne : loc ≠ "")
    (ht : parse_url loc = none)
    (hmeth : r.methods.contains ctx.method = true)
    (hmatch : r.get_target_path (decodeURIComponent ctx.url.pathname) = some found)
    (hexcl : check_excludes (r.exclude_paths.getD [])
      (decodeURIComponent ctx.url.pathname) = false) :
    r.middleware f ctx = .thrown "TypeError: Invalid URL" := by
  rw [middleware_reach r f ctx found hmeth hmatch hexcl]
  subst hf
  simp only [ProxyRoute.resolve_response]
  rw [resolve_from_parse_fail r ctx.url _ resp loc hp hs hl hne ht]

/-- Witness for `rewrite_unparseable_location_throws` on the `/ext` route
with `Location: /relative`. -/
theorem rewrite_unparseable_location_throws_witness :
    routeExt.middleware fetchBadRedirect reqExt = .thrown "TypeError: Invalid URL" :=
  rewrite_unparseable_location_throws routeExt fetchBadRedirect reqExt ""
    { status := 301, headers := [("location", "/relative")] } "/relative"
    rfl (by decide) (by decide) (by decide) (by decide) (by decide) (by decide)
    (by decide) (by decide)

/-- **C6.** Routes are tried in registration order and the first `Handled`
outcome wins; concretely, with the `root`-mode `/api` route registered before
the `single`-mode `/api/health` route, `/api/health` is answered by the first
route (the body echoes the first route's upstream URL). -/
theorem registration_order_first_wins :
    (∀ (r : ProxyRoute) (rs : List ProxyRoute) (f : FetchRequest → ResponseModel)
      (ctx : RequestModel) (st : Nat) (hs : List (String × String)) (b : String),
      r.middleware f ctx = .handled st hs b →
      run_routes f (r :: rs) ctx = .handled st hs b) ∧
    ProxyRouter.proxy routesOrdered
      = Except.ok (fun f ctx => run_routes f routesOrdered ctx) ∧
    run_routes fetchEcho routesOrdered reqHealth
      = .handled 200 [] "http://one.example/up1/health" := by
  refine ⟨?_, rfl, by decide⟩
  intro r rs f ctx st hs b h
  simp [run_routes, h]

/-- Witness for `registration_order_first_wins`: a handled first route
short-circuits the composition. -/
theorem registration_order_first_wins_witness :
    run_routes fetchEcho [routeApiRoot] reqApiary
      = .handled 200 [] "http://up.example/baseary" :=
  registration_order_first_wins.1 routeApiRoot [] fetchEcho reqApiary 200 []
    "http://up.example/baseary" (by decide)

/-- The substring scan of the `RegExp` model succeeds exactly when the
pattern occurs at some offset. -/
theorem scan_match_iff (pat l : List Char) :
    matcher_test.scan_match pat l = true ↔
    ∃ i, (l.drop i).take pat.length = pat := by
  induction l with
  | nil =>
    simp only [matcher_test.scan_match, List.isEmpty_iff, List.drop_nil, List.take_nil]
    constructor
    · intro h
      exact ⟨0, h.symm⟩
    · rintro ⟨i, hi⟩
      exact hi.symm
  | cons c rest ih =>
    simp only [matcher_test.scan_match, Bool.or_eq_true, beq_iff_eq, ih]
    constructor
    · rintro (h | ⟨i, hi⟩)
      · exact ⟨0, h⟩
      · exact ⟨i + 1, hi⟩
    · rintro ⟨i, hi⟩
      cases i with
      | zero => exact Or.inl hi
      | succ i => exact Or.inr ⟨i, hi⟩

/-- The exclusion loop succeeds exactly when some matcher in the list tests
positively. -/
theorem check_excludes_eq_true_iff (ms : List RoutePathMatcher) (p : String) :
    check_excludes ms p = true ↔ ∃ m ∈ ms, matcher_test m p = true := by
  induction ms with
  | nil => simp [check_excludes]
  | cons m rest ih =>
    simp only [check_excludes]
    by_cases h : matcher_test m p = true
    · simp [h]
    · simp [h, ih]

/-- **C7.** On a request whose method and path already matched, any matching
exclusion makes the middleware call `next()` without ever invoking the
upstream (`f` is arbitrary); literal matchers demand exact equality with the
decoded path and pattern matchers test anywhere in it. -/
theorem exclusion_first_match_declines (r : ProxyRoute) (ctx : RequestModel)
    (found : String)
    (hmeth : r.methods.contains ctx.method = true)
    (hmatch : r.get_target_path (decodeURIComponent ctx.url.pathname) = some found)
    (hex : ∃ m ∈ r.exclude_paths.getD [],
      matcher_test m (decodeURIComponent ctx.url.pathname) = true) :
    (∀ f, r.middleware f ctx = .next) ∧
    (∀ s p, matcher_test (.literal s) p = true ↔ p = s) ∧
    (∀ source p, matcher_test (.pattern source) p = true ↔
      ∃ i, (p.data.drop i).take source.data.length = source.data) := by
  refine ⟨?_, ?_, ?_⟩
  · intro f
    have hchk : check_excludes (r.exclude_paths.getD [])
        (decodeURIComponent ctx.url.pathname) = true :=
      (check_excludes_eq_true_iff _ _).mpr hex
    simp [ProxyRoute.middleware, hmeth, hmatch, hchk]
  · intro s p
    simp [matcher_test]
  · intro source p
    exact scan_match_iff source.data p.data

/-- Witness for `exclusion_first_match_declines`: `/api/admin` under the
excluding `/api` route falls through for every upstream. -/
theorem exclusion_first_match_declines_witness :
    routeApiExcl.middleware fetchEcho reqAdmin = MiddlewareOutcome.next :=
  (exclusion_first_match_declines routeApiExcl reqAdmin "/admin"
    (by decide) (by decide) (by decide)).1 fetchEcho
